import Mathlib

/-!
Verification of the postgate SQL gateway against its specification.

The development shallowly embeds the Rust sources of the repository:
pure string and token functions become Lean functions on `String`,
`List Char` and `List Nat` (bytes); fallible functions return `Except`;
the external SQL parser and the PostgreSQL driver are treated as inputs
(their results are parameters of the embedded functions).  Machine
integers are modelled as `Nat` with explicit reduction modulo `2 ^ 32`
where the algorithm (SHA-256) depends on overflow.

Sources embedded: `src/token.rs`, `src/parser.rs`, `src/config.rs`,
`src/executor.rs`, `src/error.rs`, `src/store.rs`, and the
header-token extraction used by `src/server.rs`.
-/

deriving instance DecidableEq for Except

namespace Postgate

/-! ## String helpers

Rust's `str::starts_with`, `str::to_lowercase` and `str::trim` are
translated at the character-list level (the strings handled by the
gateway's checks are ASCII, where character-wise and byte-wise
operations coincide). -/

/-- Translation of Rust `str::starts_with`: the character sequence of
the pattern is a prefix of the character sequence of the string. -/
def strStartsWith (s p : String) : Bool :=
  p.data.isPrefixOf s.data

/-- Translation of Rust `str::to_lowercase` (ASCII range). -/
def strToLower (s : String) : String :=
  ⟨s.data.map Char.toLower⟩

/-- Translation of Rust `str::trim`: drop whitespace from both ends. -/
def strTrim (s : String) : String :=
  ⟨((s.data.dropWhile Char.isWhitespace).reverse.dropWhile Char.isWhitespace).reverse⟩

/-! ## Token codec (`src/token.rs`) -/

/-- `TOKEN_PREFIX` from `src/token.rs`: literal `"pg_"`. -/
def tokenPrefixStr : String := "pg_"

/-- Lowercase hexadecimal digit character of a value below 16, as
`hex::encode` writes it: `0`-`9` for values below ten, `a`-`f` above. -/
def hexDigit (n : Nat) : Char :=
  if n < 10 then Char.ofNat (48 + n) else Char.ofNat (87 + n)

/-- The sixteen lowercase hexadecimal digit characters used by `hex::encode`. -/
def hexDigits : List Char := (List.range 16).map hexDigit

/-- Two lowercase hex characters of one byte (most significant first). -/
def byteToHex (b : Nat) : List Char := [hexDigit (b / 16), hexDigit (b % 16)]

/-- Translation of `hex::encode` over a byte list. -/
def hexEncode (bytes : List Nat) : String :=
  ⟨(bytes.map byteToHex).flatten⟩

/-! SHA-256 (the `sha2` crate's `Sha256`), translated from FIPS 180-4.
Words are `Nat` reduced modulo `2 ^ 32`. -/

/-- Reduce to a 32-bit word. -/
def w32 (n : Nat) : Nat := n % 4294967296

/-- Right rotation of a 32-bit word. -/
def rotr32 (n x : Nat) : Nat := w32 ((x >>> n) ||| (x <<< (32 - n)))

/-- SHA-256 big sigma 0. -/
def bSig0 (x : Nat) : Nat := rotr32 2 x ^^^ rotr32 13 x ^^^ rotr32 22 x

/-- SHA-256 big sigma 1. -/
def bSig1 (x : Nat) : Nat := rotr32 6 x ^^^ rotr32 11 x ^^^ rotr32 25 x

/-- SHA-256 small sigma 0. -/
def sSig0 (x : Nat) : Nat := rotr32 7 x ^^^ rotr32 18 x ^^^ (x >>> 3)

/-- SHA-256 small sigma 1. -/
def sSig1 (x : Nat) : Nat := rotr32 17 x ^^^ rotr32 19 x ^^^ (x >>> 10)

/-- SHA-256 choice function (complement taken in 32 bits). -/
def chf (x y z : Nat) : Nat := (x &&& y) ^^^ ((x ^^^ 4294967295) &&& z)

/-- SHA-256 majority function. -/
def majf (x y z : Nat) : Nat := (x &&& y) ^^^ (x &&& z) ^^^ (y &&& z)

/-- The first 64 primes, whose roots seed the SHA-256 constants. -/
def sha2Primes : List Nat :=
  [2, 3, 5, 7, 11, 13, 17, 19, 23, 29, 31, 37, 41, 43, 47, 53,
   59, 61, 67, 71, 73, 79, 83, 89, 97, 101, 103, 107, 109, 113, 127, 131,
   137, 139, 149, 151, 157, 163, 167, 173, 179, 181, 191, 193, 197, 199, 211, 223,
   227, 229, 233, 239, 241, 251, 257, 263, 269, 271, 277, 281, 283, 293, 307, 311]

/-- Binary search for the integer cube root (largest `c` with `c ^ 3 ≤ n`,
maintained as `lo ^ 3 ≤ n < hi ^ 3`). -/
def cbrtAux (n : Nat) (lo hi : Nat) : Nat :=
  if h : hi ≤ lo + 1 then lo
  else
    let mid := (lo + hi) / 2
    if mid ^ 3 ≤ n then cbrtAux n mid hi else cbrtAux n lo mid
termination_by hi - lo
decreasing_by
  all_goals omega

/-- Integer cube root. -/
def natCbrt (n : Nat) : Nat := cbrtAux n 0 (n + 1)

/-- SHA-256 round constants: the first 32 bits of the fractional parts of
the cube roots of the first 64 primes (FIPS 180-4 section 4.2.2). -/
def shaK : List Nat :=
  sha2Primes.map (fun p => natCbrt (p * 2 ^ 96) % 2 ^ 32)

/-- SHA-256 initial hash value: the first 32 bits of the fractional parts
of the square roots of the first 8 primes (FIPS 180-4 section 5.3.3). -/
def shaH0 : List Nat :=
  (sha2Primes.take 8).map (fun p => Nat.sqrt (p * 2 ^ 64) % 2 ^ 32)

/-- Big-endian byte expansion of a number into `k` bytes. -/
def beBytes : Nat → Nat → List Nat
  | 0, _ => []
  | k + 1, n => beBytes k (n / 256) ++ [n % 256]

/-- SHA-256 message padding: append `0x80`, zero bytes up to 56 mod 64,
then the bit length in 8 big-endian bytes. -/
def padMessage (msg : List Nat) : List Nat :=
  msg ++ [0x80] ++ List.replicate ((119 - msg.length % 64) % 64) 0 ++ beBytes 8 (msg.length * 8)

/-- Group bytes into big-endian 32-bit words. -/
def wordsOfBytes : List Nat → List Nat
  | b0 :: b1 :: b2 :: b3 :: rest =>
    (((b0 * 256 + b1) * 256 + b2) * 256 + b3) :: wordsOfBytes rest
  | _ => []

/-- One extension step of the SHA-256 message schedule. -/
def extendSchedule (ws : List Nat) (_i : Nat) : List Nat :=
  ws ++ [w32 (sSig1 (ws.getD (ws.length - 2) 0) + ws.getD (ws.length - 7) 0 +
    sSig0 (ws.getD (ws.length - 15) 0) + ws.getD (ws.length - 16) 0)]

/-- The 64-entry message schedule of one 64-byte block. -/
def messageSchedule (block : List Nat) : List Nat :=
  (List.range 48).foldl extendSchedule (wordsOfBytes block)

/-- One round of the SHA-256 compression function. -/
def compressStep (ws : List Nat) (st : Nat × Nat × Nat × Nat × Nat × Nat × Nat × Nat)
    (t : Nat) : Nat × Nat × Nat × Nat × Nat × Nat × Nat × Nat :=
  let (a, b, c, d, e, f, g, h) := st
  let t1 := w32 (h + bSig1 e + chf e f g + shaK.getD t 0 + ws.getD t 0)
  let t2 := w32 (bSig0 a + majf a b c)
  (w32 (t1 + t2), a, b, c, w32 (d + t1), e, f, g)

/-- Process one 64-byte block into the running hash state. -/
def processBlock (hs : List Nat) (block : List Nat) : List Nat :=
  let ws := messageSchedule block
  let s0 := (hs.getD 0 0, hs.getD 1 0, hs.getD 2 0, hs.getD 3 0,
    hs.getD 4 0, hs.getD 5 0, hs.getD 6 0, hs.getD 7 0)
  let r := (List.range 64).foldl (compressStep ws) s0
  let (a, b, c, d, e, f, g, h) := r
  [w32 (hs.getD 0 0 + a), w32 (hs.getD 1 0 + b), w32 (hs.getD 2 0 + c), w32 (hs.getD 3 0 + d),
   w32 (hs.getD 4 0 + e), w32 (hs.getD 5 0 + f), w32 (hs.getD 6 0 + g), w32 (hs.getD 7 0 + h)]

/-- Split a byte list into 64-byte chunks. -/
def chunks64 (l : List Nat) : List (List Nat) :=
  if h : l = [] then [] else
    l.take 64 :: chunks64 (l.drop 64)
termination_by l.length
decreasing_by
  simp only [List.length_drop]
  have := List.length_pos.mpr h
  omega

/-- SHA-256 of a byte list, as 32 bytes. -/
def sha256 (msg : List Nat) : List Nat :=
  (((chunks64 (padMessage msg)).foldl processBlock shaH0).map (beBytes 4)).flatten

/-- UTF-8 encoding of one character. -/
def charUtf8 (c : Char) : List Nat :=
  let n := c.toNat
  if n < 0x80 then [n]
  else if n < 0x800 then [0xC0 ||| (n >>> 6), 0x80 ||| (n &&& 0x3F)]
  else if n < 0x10000 then
    [0xE0 ||| (n >>> 12), 0x80 ||| ((n >>> 6) &&& 0x3F), 0x80 ||| (n &&& 0x3F)]
  else
    [0xF0 ||| (n >>> 18), 0x80 ||| ((n >>> 12) &&& 0x3F), 0x80 ||| ((n >>> 6) &&& 0x3F),
     0x80 ||| (n &&& 0x3F)]

/-- The UTF-8 bytes of a string (Rust `str::as_bytes`). -/
def strBytes (s : String) : List Nat :=
  (s.data.map charUtf8).flatten

/-- `hash_token` from `src/token.rs`: SHA-256 of the token string, hex encoded. -/
def hash_token (token : String) : String :=
  hexEncode (sha256 (strBytes token))

/-- `generate_token` from `src/token.rs`, parameterised by the 32 random
bytes the Rust code draws from `rand::thread_rng`.  Returns
`(full_token, token_hash, token_prefix)`; the prefix slice `[..8.min(len)]`
is byte-level in Rust and character-level here (the token is ASCII). -/
def generate_token (random_bytes : List Nat) : String × String × String :=
  let random_hex := hexEncode random_bytes
  let full_token := tokenPrefixStr ++ random_hex
  let token_hash := hash_token full_token
  let pfx : String := ⟨full_token.data.take (min 8 full_token.length)⟩
  (full_token, token_hash, pfx)

/-- `is_valid_format` from `src/token.rs`. -/
def is_valid_format (token : String) : Bool :=
  strStartsWith token tokenPrefixStr && token.length == tokenPrefixStr.length + 64

/-! ## SQL validator (`src/parser.rs`, `src/config.rs`) -/

/-- `SqlOperation` from `src/config.rs`. -/
inductive SqlOperation where
  | select
  | insert
  | update
  | delete
  | create
  | alter
  | drop
deriving DecidableEq, Repr

/-- `SqlOperation::as_str` from `src/config.rs`. -/
def SqlOperation.as_str : SqlOperation → String
  | .select => "SELECT"
  | .insert => "INSERT"
  | .update => "UPDATE"
  | .delete => "DELETE"
  | .create => "CREATE"
  | .alter => "ALTER"
  | .drop => "DROP"

/-- `ParseError` from `src/parser.rs`. -/
inductive ParseError where
  | sqlParser (msg : String)
  | emptyQuery
  | multipleStatements
  | operationNotAllowed (op : SqlOperation)
  | tableNotAllowed (table : String)
  | tableDenied (table : String)
  | qualifiedTableName (full : String)
  | systemTableAccess (name : String)
  | unsupportedStatement
deriving DecidableEq, Repr

/-- The top-level constructor kinds of `sqlparser::ast::Statement` that the
validator distinguishes; every remaining variant of the (large) Rust enum is
collapsed into `otherStmt`, which `extract_operation` treats identically. -/
inductive StatementKind where
  | query
  | insert
  | update
  | delete
  | createTable
  | createIndex
  | createView
  | alterTable
  | alterIndex
  | drop
  | truncate
  | setVariable
  | showVariable
  | copy
  | grant
  | startTransaction
  | otherStmt
deriving DecidableEq, Repr

/-- A parsed SQL statement as the validator sees it: its top-level
constructor kind, and the object names its AST's relation references carry
(each an identifier-part list), in the order `visit_relations` visits them. -/
structure Statement where
  kind : StatementKind
  relations : List (List String)
deriving DecidableEq, Repr

instance : Inhabited Statement := ⟨⟨.query, []⟩⟩

/-- `TableRef` from `src/parser.rs`. -/
structure TableRef where
  schema : Option String
  name : String
deriving DecidableEq, Repr

/-- `ParsedQuery` from `src/parser.rs` (the table set is kept as the
insertion-ordered duplicate-free list the validator builds). -/
structure ParsedQuery where
  operation : SqlOperation
  tables : List String
  statement : Statement
deriving DecidableEq, Repr

/-- `QueryRules` from `src/config.rs`. -/
structure QueryRules where
  allowed_operations : Finset SqlOperation
  allowed_tables : Option (Finset String)
  denied_tables : Finset String

/-- `extract_operation` from `src/parser.rs`: `Statement::Query`,
`Statement::Insert`, `Statement::Update`, `Statement::Delete` map to the
four DML operations, every other statement kind is unsupported. -/
def extract_operation (statement : Statement) : Except ParseError SqlOperation :=
  match statement.kind with
  | .query => .ok .select
  | .insert => .ok .insert
  | .update => .ok .update
  | .delete => .ok .delete
  | _ => .error .unsupportedStatement

/-- The projection of one relation's identifier parts into a `TableRef`,
from the closure inside `extract_table_refs` (`src/parser.rs`): one part is
a bare name, two parts are schema and name, more parts join all but the
last with `"."` as the schema. -/
def mkTableRef (parts : List String) : TableRef :=
  match parts with
  | [n] => ⟨none, n⟩
  | [s, n] => ⟨some s, n⟩
  | ps => ⟨some (String.intercalate "." ps.dropLast), ps.getLast?.getD ""⟩

/-- `extract_table_refs` from `src/parser.rs`: project every relation
reference visited by `visit_relations`. -/
def extract_table_refs (statement : Statement) : List TableRef :=
  statement.relations.map mkTableRef

/-- `validate_table_refs` from `src/parser.rs`: walk the references in
order; a schema part fails with `QualifiedTableName`, a lowercased name
starting with `pg_` or equal to `information_schema` fails with
`SystemTableAccess`, otherwise the bare name joins the result set. -/
def validate_table_refs : List TableRef → Except ParseError (List String)
  | [] => .ok []
  | table_ref :: rest =>
    match table_ref.schema with
    | some s => .error (.qualifiedTableName (s ++ "." ++ table_ref.name))
    | none =>
      if strStartsWith (strToLower table_ref.name) "pg_" then
        .error (.systemTableAccess table_ref.name)
      else if strToLower table_ref.name = "information_schema" then
        .error (.systemTableAccess table_ref.name)
      else
        match validate_table_refs rest with
        | .error e => .error e
        | .ok table_names => .ok (table_names.insert table_ref.name)

/-- The table-rules loop of `parse_and_validate` (`src/parser.rs` lines
71-85): each accepted table is checked against `denied_tables` and, when a
whitelist is configured, against `allowed_tables`. -/
def validate_tables_against_rules (rules : QueryRules) : List String → Except ParseError Unit
  | [] => .ok ()
  | table :: rest =>
    if strToLower table ∈ rules.denied_tables then
      .error (.tableDenied table)
    else
      match rules.allowed_tables with
      | some allowed =>
        if strToLower table ∉ allowed then .error (.tableNotAllowed table)
        else validate_tables_against_rules rules rest
      | none => validate_tables_against_rules rules rest

/-- `parse_and_validate` from `src/parser.rs`, parameterised by the result
of the external `sqlparser` call (`Parser::parse_sql`): an error string, or
the list of parsed statements. -/
def parse_and_validate (parsed : Except String (List Statement)) (rules : QueryRules) :
    Except ParseError ParsedQuery :=
  match parsed with
  | .error e => .error (.sqlParser e)
  | .ok statements =>
    if statements.isEmpty then .error .emptyQuery
    else if statements.length > 1 then .error .multipleStatements
    else
      let statement := statements.headI
      match extract_operation statement with
      | .error e => .error e
      | .ok operation =>
        match validate_table_refs (extract_table_refs statement) with
        | .error e => .error e
        | .ok tables =>
          if rules.allowed_operations ≠ ∅ ∧ operation ∉ rules.allowed_operations then
            .error (.operationNotAllowed operation)
          else
            match validate_tables_against_rules rules tables with
            | .error e => .error e
            | .ok _ => .ok ⟨operation, tables, statement⟩

/-! ## Header-token extraction (`src/server.rs` / spec section 4.A) -/

/-- Authentication errors of the token-extraction path (spec section 4.A). -/
inductive AuthError where
  | missingHeader
  | invalidTokenFormat
deriving DecidableEq, Repr

/-- Modelled from the spec: the normalisation inside `extract_token`.
`server.rs` calls `crate::auth::extract_token`, whose definition is not
among the sources (the `src/auth.rs` present is a different, JWT-based
iteration); spec section 4.A says the header is accepted either as
`Bearer <token>` or as a bare `<token>`, after trimming whitespace. -/
def extracted_header_token (h : String) : String :=
  let t := strTrim h
  if strStartsWith t "Bearer " then strTrim ⟨t.data.drop 7⟩ else t

/-- Modelled from the spec: `extract_token` (`crate::auth`), called by
`get_token_info` in `src/server.rs` but missing from the sources.  Spec
section 4.A `extract_from_header`: fails with `MissingHeader` if the
header is absent, with `InvalidTokenFormat` if `format_valid?` is false on
the extracted token, and otherwise returns the token. -/
def extract_token (auth_header : Option String) : Except AuthError String :=
  match auth_header with
  | none => .error .missingHeader
  | some h =>
    let token := extracted_header_token h
    if is_valid_format token then .ok token else .error .invalidTokenFormat

/-! ## Executor (`src/executor.rs`) -/

/-- `ExecutorError` from `src/executor.rs` (the driver error keeps its
message). -/
inductive ExecutorError where
  | database (msg : String)
  | timeout
  | rowLimitExceeded (max_rows : Nat)
deriving DecidableEq, Repr

/-- `QueryResponse` from `src/executor.rs`, generic over the JSON row
representation produced by `row_to_json`. -/
structure QueryResponse (J : Type) where
  rows : List J
  row_count : Nat
deriving DecidableEq, Repr

/-- The `?` propagation of an `sqlx` driver result into `ExecutorError::Database`. -/
def liftDb {α : Type} : Except String α → Except ExecutorError α
  | .ok a => .ok a
  | .error e => .error (.database e)

/-- `execute_with_schema` from `src/executor.rs`, parameterised by the
driver results of its four suspension points, in program order: beginning
the transaction, the `SET LOCAL search_path` statement, fetching the rows
of the user query, and the commit.  After a successful commit the row cap
is checked, and only then is the response built.  The row type `R` and the
`row_to_json` conversion are abstract. -/
def execute_with_schema {R J : Type} (row_to_json : R → J)
    (begin_r : Except String Unit) (set_path_r : Except String Unit)
    (fetch_r : Except String (List R)) (commit_r : Except String Unit)
    (max_rows : Nat) : Except ExecutorError (QueryResponse J) :=
  match liftDb begin_r with
  | .error e => .error e
  | .ok _ =>
    match liftDb set_path_r with
    | .error e => .error e
    | .ok _ =>
      match liftDb fetch_r with
      | .error e => .error e
      | .ok rows =>
        match liftDb commit_r with
        | .error e => .error e
        | .ok _ =>
          if rows.length > max_rows then .error (.rowLimitExceeded max_rows)
          else .ok { rows := rows.map row_to_json, row_count := rows.length }

/-- `execute_dedicated` from `src/executor.rs`, parameterised by the
results of obtaining the dedicated pool and of fetching the rows. -/
def execute_dedicated {R J : Type} (row_to_json : R → J)
    (pool_r : Except String Unit) (fetch_r : Except String (List R))
    (max_rows : Nat) : Except ExecutorError (QueryResponse J) :=
  match liftDb pool_r with
  | .error e => .error e
  | .ok _ =>
    match liftDb fetch_r with
    | .error e => .error e
    | .ok rows =>
      if rows.length > max_rows then .error (.rowLimitExceeded max_rows)
      else .ok { rows := rows.map row_to_json, row_count := rows.length }

/-! ## Error taxonomy and HTTP mapping (`src/error.rs`) -/

/-- UUIDs are opaque 128-bit identifiers; their value never matters here. -/
abbrev Uuid := Nat

/-- `PostgateError` from `src/error.rs`. -/
inductive PostgateError where
  | parse (e : ParseError)
  | executor (e : ExecutorError)
  | databaseNotFound (id : Uuid)
  | missingAuth
  | invalidAuth
  | internal (msg : String)
deriving DecidableEq, Repr

/-- The `thiserror` display string of a `ParseError`. -/
def parseErrorMessage : ParseError → String
  | .sqlParser m => "Failed to parse SQL: " ++ m
  | .emptyQuery => "Empty query"
  | .multipleStatements => "Multiple statements not allowed"
  | .operationNotAllowed op => "Operation " ++ op.as_str ++ " is not allowed"
  | .tableNotAllowed t => "Table '" ++ t ++ "' is not allowed"
  | .tableDenied t => "Table '" ++ t ++ "' is denied"
  | .qualifiedTableName f => "Qualified table names are not allowed: '" ++ f ++ "'"
  | .systemTableAccess n => "System table access is not allowed: '" ++ n ++ "'"
  | .unsupportedStatement => "Unsupported statement type"

/-- The `thiserror` display string of an `ExecutorError`. -/
def executorErrorMessage : ExecutorError → String
  | .database m => "Database error: " ++ m
  | .timeout => "Query timeout"
  | .rowLimitExceeded m => "Row limit exceeded (max: " ++ toString m ++ ")"

/-- The `thiserror` display string of a `PostgateError`. -/
def postgateErrorMessage : PostgateError → String
  | .parse e => "Parse error: " ++ parseErrorMessage e
  | .executor e => "Execution error: " ++ executorErrorMessage e
  | .databaseNotFound id => "Database not found: " ++ toString id
  | .missingAuth => "Missing authorization header"
  | .invalidAuth => "Invalid authorization header"
  | .internal m => "Internal error: " ++ m

/-- The JSON error envelope of `src/error.rs`. -/
structure ErrorResponse where
  error : String
  code : String
deriving DecidableEq, Repr

/-- `error_response` from `src/error.rs`: the HTTP status and the JSON
envelope, with the match arms in source order. -/
def error_response (e : PostgateError) : Nat × ErrorResponse :=
  let sc : Nat × String :=
    match e with
    | .parse _ => (400, "PARSE_ERROR")
    | .executor .timeout => (504, "TIMEOUT")
    | .executor (.rowLimitExceeded _) => (400, "ROW_LIMIT_EXCEEDED")
    | .executor _ => (500, "DATABASE_ERROR")
    | .databaseNotFound _ => (404, "DATABASE_NOT_FOUND")
    | .missingAuth => (401, "UNAUTHORIZED")
    | .invalidAuth => (401, "UNAUTHORIZED")
    | .internal _ => (500, "INTERNAL_ERROR")
  (sc.1, { error := postgateErrorMessage e, code := sc.2 })

/-! ## Metadata store (`src/store.rs`, `src/config.rs`) -/

/-- `DatabaseBackend` from `src/config.rs`. -/
inductive DatabaseBackend where
  | schema (schema_name : String)
  | dedicated (connection_string : String)
deriving DecidableEq, Repr

/-- `DatabaseConfig` from `src/config.rs`. -/
structure DatabaseConfig where
  id : Uuid
  name : String
  backend : DatabaseBackend
  max_rows : Int
deriving DecidableEq, Repr

/-- `StoreError` from `src/store.rs`. -/
inductive StoreError where
  | database (msg : String)
  | notFound (id : Uuid)
  | invalidBackendType (backend_type : String)
  | tokenNotFound
deriving DecidableEq, Repr

/-- One row of `postgate_databases` as `get_database` selects it; the two
variant columns are nullable. -/
structure DatabaseRow where
  id : Uuid
  name : String
  backend_type : String
  schema_name : Option String
  connection_string : Option String
  max_rows : Int
deriving DecidableEq, Repr

/-- `get_database` from `src/store.rs`, parameterised by the driver result
of the row fetch: a driver error, no row, or the row.  `unwrap_or_default`
on the nullable variant columns becomes `Option.getD _ ""`. -/
def get_database (id : Uuid) (fetched : Except String (Option DatabaseRow)) :
    Except StoreError DatabaseConfig :=
  match fetched with
  | .error e => .error (.database e)
  | .ok none => .error (.notFound id)
  | .ok (some row) =>
    if row.backend_type = "schema" then
      .ok ⟨row.id, row.name, .schema (row.schema_name.getD ""), row.max_rows⟩
    else if row.backend_type = "dedicated" then
      .ok ⟨row.id, row.name, .dedicated (row.connection_string.getD ""), row.max_rows⟩
    else
      .error (.invalidBackendType row.backend_type)

/-! ## Helper lemmas -/

/-- A list is a `isPrefixOf` any extension of itself. -/
theorem isPrefixOf_append (l t : List Char) : l.isPrefixOf (l ++ t) = true := by
  simp [List.isPrefixOf_iff_prefix]

/-- The character list underlying `hexEncode`. -/
theorem hexEncode_data (bytes : List Nat) :
    (hexEncode bytes).data = (bytes.map byteToHex).flatten := rfl

/-- `hexEncode` yields two characters per byte. -/
theorem hexEncode_length (bytes : List Nat) : (hexEncode bytes).length = 2 * bytes.length := by
  show (hexEncode bytes).data.length = 2 * bytes.length
  rw [hexEncode_data]
  induction bytes with
  | nil => rfl
  | cons b bs ih =>
    simp only [List.map_cons, List.flatten_cons, List.length_append, ih, byteToHex,
      List.length_cons, List.length_nil, List.length_map]
    omega

/-- The hex digit character of a value below 16 is one of the sixteen
lowercase digits. -/
theorem hexDigit_mem (n : Nat) (h : n < 16) : hexDigit n ∈ hexDigits :=
  List.mem_map_of_mem _ (List.mem_range.mpr h)

/-- Every character of a `hexEncode` output over bytes is a lowercase hex
digit. -/
theorem hexEncode_mem (bytes : List Nat) (hb : ∀ b ∈ bytes, b < 256) :
    ∀ c ∈ (hexEncode bytes).data, c ∈ hexDigits := by
  show ∀ c ∈ (bytes.map byteToHex).flatten, c ∈ hexDigits
  intro c hc
  rw [List.mem_flatten] at hc
  obtain ⟨l, hl, hcl⟩ := hc
  rw [List.mem_map] at hl
  obtain ⟨b, hbmem, rfl⟩ := hl
  have hb256 := hb b hbmem
  simp only [byteToHex, List.mem_cons, List.not_mem_nil, or_false] at hcl
  rcases hcl with rfl | rfl
  · exact hexDigit_mem _ (by omega)
  · exact hexDigit_mem _ (by omega)

/-! ## Claim theorems -/

/-- C8: for every 32-byte random input, the minted token is the literal
prefix `pg_` followed by 64 lowercase hex characters (total length 67),
`is_valid_format` holds for it, the returned prefix is its first 8
characters, and the returned hash is `hash_token` applied to the token —
determinism of hashing is inherent, `hash_token` being a function of the
token string alone. -/
theorem generate_token_roundtrip (bytes : List Nat) (hlen : bytes.length = 32)
    (hbytes : ∀ b ∈ bytes, b < 256) :
    (generate_token bytes).1 = tokenPrefixStr ++ hexEncode bytes ∧
    (hexEncode bytes).length = 64 ∧
    (∀ c ∈ (hexEncode bytes).data, c ∈ hexDigits) ∧
    (∀ c ∈ (hexEncode bytes).data, c.isDigit = true ∨ c.isLower = true) ∧
    (generate_token bytes).1.length = 67 ∧
    is_valid_format (generate_token bytes).1 = true ∧
    (generate_token bytes).2.2 = ⟨(generate_token bytes).1.data.take 8⟩ ∧
    (generate_token bytes).2.1 = hash_token (generate_token bytes).1 := by
  have hexlen : (hexEncode bytes).length = 64 := by rw [hexEncode_length, hlen]
  have toklen : (generate_token bytes).1.length = 67 := by
    show (tokenPrefixStr ++ hexEncode bytes).length = 67
    rw [String.length_append, hexlen]
    rfl
  refine ⟨rfl, hexlen, hexEncode_mem bytes hbytes, ?_, toklen, ?_, ?_, rfl⟩
  · intro c hc
    have hmem := hexEncode_mem bytes hbytes c hc
    exact (by decide : ∀ c ∈ hexDigits, c.isDigit = true ∨ c.isLower = true) c hmem
  · show (strStartsWith (tokenPrefixStr ++ hexEncode bytes) tokenPrefixStr &&
      ((tokenPrefixStr ++ hexEncode bytes).length == tokenPrefixStr.length + 64)) = true
    rw [Bool.and_eq_true]
    constructor
    · show (tokenPrefixStr.data.isPrefixOf (tokenPrefixStr ++ hexEncode bytes).data) = true
      rw [String.data_append]
      exact isPrefixOf_append _ _
    · have : (tokenPrefixStr ++ hexEncode bytes).length = 67 := toklen
      rw [this]
      rfl
  · show (⟨(tokenPrefixStr ++ hexEncode bytes).data.take
        (min 8 (tokenPrefixStr ++ hexEncode bytes).length)⟩ : String) =
      ⟨(tokenPrefixStr ++ hexEncode bytes).data.take 8⟩
    have : (tokenPrefixStr ++ hexEncode bytes).length = 67 := toklen
    rw [this]
    norm_num

/-- C8 witness: the round-trip theorem applied to the all-zero 32-byte input. -/
theorem generate_token_roundtrip_witness :
    (generate_token (List.replicate 32 0)).1 =
      tokenPrefixStr ++ hexEncode (List.replicate 32 0) ∧
    (hexEncode (List.replicate 32 0)).length = 64 ∧
    (∀ c ∈ (hexEncode (List.replicate 32 0)).data, c ∈ hexDigits) ∧
    (∀ c ∈ (hexEncode (List.replicate 32 0)).data, c.isDigit = true ∨ c.isLower = true) ∧
    (generate_token (List.replicate 32 0)).1.length = 67 ∧
    is_valid_format (generate_token (List.replicate 32 0)).1 = true ∧
    (generate_token (List.replicate 32 0)).2.2 =
      ⟨(generate_token (List.replicate 32 0)).1.data.take 8⟩ ∧
    (generate_token (List.replicate 32 0)).2.1 =
      hash_token (generate_token (List.replicate 32 0)).1 :=
  generate_token_roundtrip (List.replicate 32 0) (by decide) (by decide)

/-- Inversion of a successful `validate_table_refs`: every reference was
unqualified and non-system, and the result set holds exactly the bare
names. -/
theorem validate_table_refs_ok_clean (refs : List TableRef) (tables : List String)
    (h : validate_table_refs refs = .ok tables) :
    (∀ r ∈ refs, r.schema = none ∧ strStartsWith (strToLower r.name) "pg_" = false ∧
      strToLower r.name ≠ "information_schema") ∧
    (∀ n, n ∈ tables ↔ ∃ r ∈ refs, r.name = n) := by
  induction refs generalizing tables with
  | nil =>
    simp only [validate_table_refs] at h
    obtain rfl : ([] : List String) = tables := by injection h
    simp
  | cons r rest ih =>
    obtain ⟨sch, name⟩ := r
    cases sch with
    | some s => simp [validate_table_refs] at h
    | none =>
      simp only [validate_table_refs] at h
      by_cases hpg : strStartsWith (strToLower name) "pg_" = true
      · rw [if_pos hpg] at h
        exact absurd h (by simp)
      · rw [if_neg hpg] at h
        by_cases hinfo : strToLower name = "information_schema"
        · rw [if_pos hinfo] at h
          exact absurd h (by simp)
        · rw [if_neg hinfo] at h
          cases htail : validate_table_refs rest with
          | error e => rw [htail] at h; exact absurd h (by simp)
          | ok tail =>
            rw [htail] at h
            obtain rfl : tail.insert name = tables := by injection h
            obtain ⟨hclean, hmem⟩ := ih tail htail
            refine ⟨?_, ?_⟩
            · intro r hr
              rcases List.mem_cons.mp hr with rfl | hr'
              · exact ⟨rfl, by simpa using hpg, hinfo⟩
              · exact hclean r hr'
            · intro n
              rw [List.mem_insert_iff, hmem n]
              constructor
              · rintro (rfl | ⟨r, hr, rfl⟩)
                · exact ⟨⟨none, n⟩, List.mem_cons_self _ _, rfl⟩
                · exact ⟨r, List.mem_cons_of_mem _ hr, rfl⟩
              · rintro ⟨r, hr, rfl⟩
                rcases List.mem_cons.mp hr with rfl | hr'
                · exact Or.inl rfl
                · exact Or.inr ⟨r, hr', rfl⟩

/-- Inversion of a successful `parse_and_validate`: the parser produced
exactly one statement, and the `ParsedQuery` fields come from the
classification and table vetting of that statement. -/
theorem parse_and_validate_ok_inv (parsed : Except String (List Statement))
    (rules : QueryRules) (q : ParsedQuery)
    (h : parse_and_validate parsed rules = .ok q) :
    ∃ statements, parsed = .ok statements ∧ statements.length = 1 ∧
      q.statement = statements.headI ∧
      extract_operation statements.headI = .ok q.operation ∧
      validate_table_refs (extract_table_refs statements.headI) = .ok q.tables ∧
      validate_tables_against_rules rules q.tables = .ok () := by
  cases parsed with
  | error e => simp [parse_and_validate] at h
  | ok statements =>
    refine ⟨statements, rfl, ?_⟩
    simp only [parse_and_validate] at h
    split at h
    · exact absurd h (by simp)
    · split at h
      · exact absurd h (by simp)
      · rename_i hemp hlen
        have hone : statements.length = 1 := by
          rcases statements with _ | ⟨a, rest⟩
          · simp at hemp
          · simp only [List.length_cons] at hlen ⊢
            omega
        refine ⟨hone, ?_⟩
        split at h
        · exact absurd h (by simp)
        · rename_i operation hop
          split at h
          · exact absurd h (by simp)
          · rename_i tables htab
            split at h
            · exact absurd h (by simp)
            · split at h
              · exact absurd h (by simp)
              · rename_i u hrules
                obtain rfl : (⟨operation, tables, statements.headI⟩ : ParsedQuery) = q := by
                  injection h
                exact ⟨rfl, hop, htab, by simpa using hrules⟩

/-- C1: the table check vets every relation reference in order — a schema
part fails with `QualifiedTableName` of the full name, a lowercased name
starting with `pg_` or equal to `information_schema` fails with
`SystemTableAccess` of the name, and otherwise the bare name is accepted
into the result set; consequently a successful check vetted every
reference, its result set holds exactly the bare names, and no
`ParsedQuery` built by `parse_and_validate` carries a schema-qualified or
system-table reference. -/
theorem validate_table_refs_vets_in_order (refs : List TableRef) :
    (∀ tables, validate_table_refs refs = .ok tables →
      (∀ r ∈ refs, r.schema = none ∧ strStartsWith (strToLower r.name) "pg_" = false ∧
        strToLower r.name ≠ "information_schema") ∧
      (∀ n, n ∈ tables ↔ ∃ r ∈ refs, r.name = n)) ∧
    (∀ r rest s, r.schema = some s →
      validate_table_refs (r :: rest) = .error (.qualifiedTableName (s ++ "." ++ r.name))) ∧
    (∀ r rest, r.schema = none →
      (strStartsWith (strToLower r.name) "pg_" = true ∨ strToLower r.name = "information_schema") →
      validate_table_refs (r :: rest) = .error (.systemTableAccess r.name)) ∧
    (∀ parsed rules q, parse_and_validate parsed rules = .ok q →
      ∀ n ∈ q.tables, strStartsWith (strToLower n) "pg_" = false ∧
        strToLower n ≠ "information_schema") := by
  refine ⟨fun tables h => validate_table_refs_ok_clean refs tables h, ?_, ?_, ?_⟩
  · rintro ⟨sch, name⟩ rest s hs
    cases hs
    simp [validate_table_refs]
  · rintro ⟨sch, name⟩ rest h0 hbad
    cases h0
    simp only [validate_table_refs]
    rcases hbad with hpg | hinfo
    · rw [if_pos hpg]
    · by_cases hpg : strStartsWith (strToLower name) "pg_" = true
      · rw [if_pos hpg]
      · rw [if_neg hpg, if_pos hinfo]
  · intro parsed rules q hq n hn
    obtain ⟨statements, -, -, -, -, htab, -⟩ := parse_and_validate_ok_inv parsed rules q hq
    obtain ⟨hclean, hmem⟩ :=
      validate_table_refs_ok_clean (extract_table_refs statements.headI) q.tables htab
    obtain ⟨r, hr, rfl⟩ := (hmem n).mp hn
    exact (hclean r hr).2

/-- C1 witness: the in-order vetting theorem applied to concrete reference
lists — a clean reference is accepted, a schema-qualified reference fails
with `QualifiedTableName`, a `pg_`-named reference fails with
`SystemTableAccess`. -/
theorem validate_table_refs_vets_in_order_witness :
    ((⟨none, "users"⟩ : TableRef).schema = none ∧
      strStartsWith (strToLower "users") "pg_" = false ∧
      strToLower "users" ≠ "information_schema") ∧
    validate_table_refs [⟨some "public", "users"⟩] =
      .error (.qualifiedTableName "public.users") ∧
    validate_table_refs [⟨none, "pg_tables"⟩] = .error (.systemTableAccess "pg_tables") := by
  refine ⟨?_, ?_, ?_⟩
  · exact ((validate_table_refs_vets_in_order [⟨none, "users"⟩]).1 ["users"] (by decide)).1
      ⟨none, "users"⟩ (by decide)
  · exact (validate_table_refs_vets_in_order [⟨some "public", "users"⟩]).2.1
      ⟨some "public", "users"⟩ [] "public" rfl
  · exact (validate_table_refs_vets_in_order [⟨none, "pg_tables"⟩]).2.2.1
      ⟨none, "pg_tables"⟩ [] rfl (Or.inl (by decide))

/-- C2: `parse_and_validate` fails with `EmptyQuery` on zero parsed
statements and with `MultipleStatements` on more than one, and a
`ParsedQuery` is only ever produced from exactly one parsed statement. -/
theorem parse_and_validate_statement_count (rules : QueryRules) :
    parse_and_validate (.ok []) rules = .error .emptyQuery ∧
    (∀ statements : List Statement, statements.length > 1 →
      parse_and_validate (.ok statements) rules = .error .multipleStatements) ∧
    (∀ statements q, parse_and_validate (.ok statements) rules = .ok q →
      statements.length = 1) := by
  refine ⟨rfl, ?_, ?_⟩
  · intro statements hlen
    have hne : statements.isEmpty = false := by
      rcases statements with _ | ⟨a, rest⟩
      · simp at hlen
      · rfl
    simp [parse_and_validate, hne, hlen]
  · intro statements q h
    obtain ⟨sts, heq, hone, -⟩ := parse_and_validate_ok_inv (.ok statements) rules q h
    obtain rfl : statements = sts := by injection heq
    exact hone

/-- C2 witness: the statement-count theorem applied to a concrete
two-statement parse result. -/
theorem parse_and_validate_statement_count_witness :
    parse_and_validate (.ok [⟨.query, []⟩, ⟨.query, []⟩])
      ⟨∅, none, ∅⟩ = .error .multipleStatements :=
  (parse_and_validate_statement_count ⟨∅, none, ∅⟩).2.1
    [⟨.query, []⟩, ⟨.query, []⟩] (by decide)

/-- C3 counterexample: the validator does not classify `CREATE TABLE` as
the `CREATE` operation — `extract_operation` rejects it (and every other
DDL statement kind) as `UnsupportedStatement`. -/
theorem extract_operation_createTable_unsupported :
    extract_operation ⟨.createTable, []⟩ = .error .unsupportedStatement ∧
    extract_operation ⟨.createTable, []⟩ ≠ .ok .create ∧
    extract_operation ⟨.drop, []⟩ = .error .unsupportedStatement ∧
    extract_operation ⟨.alterTable, []⟩ = .error .unsupportedStatement ∧
    extract_operation ⟨.truncate, []⟩ = .error .unsupportedStatement := by
  refine ⟨rfl, ?_, rfl, rfl, rfl⟩
  decide

/-- C3 amended: the validator classifies the single parsed statement into
one of four operations — SELECT for a top-level query expression, INSERT,
UPDATE and DELETE for the corresponding DML forms — and fails with
`UnsupportedStatement` for every other statement kind, the CREATE, ALTER,
DROP and TRUNCATE forms included; it never yields the CREATE, ALTER or
DROP operations. -/
theorem extract_operation_classification (st : Statement) :
    (extract_operation st = .ok .select ↔ st.kind = .query) ∧
    (extract_operation st = .ok .insert ↔ st.kind = .insert) ∧
    (extract_operation st = .ok .update ↔ st.kind = .update) ∧
    (extract_operation st = .ok .delete ↔ st.kind = .delete) ∧
    (extract_operation st = .error .unsupportedStatement ↔
      st.kind ≠ .query ∧ st.kind ≠ .insert ∧ st.kind ≠ .update ∧ st.kind ≠ .delete) ∧
    extract_operation st ≠ .ok .create ∧
    extract_operation st ≠ .ok .alter ∧
    extract_operation st ≠ .ok .drop := by
  obtain ⟨k, rels⟩ := st
  cases k <;> simp [extract_operation]

/-- C3 witness: the amended classification applied to a concrete CREATE
VIEW statement. -/
theorem extract_operation_classification_witness :
    extract_operation ⟨.createView, []⟩ = .error .unsupportedStatement ∧
    extract_operation ⟨.createView, []⟩ ≠ .ok .create := by
  have h := extract_operation_classification ⟨.createView, []⟩
  exact ⟨h.2.2.2.2.1.mpr (by decide), h.2.2.2.2.2.1⟩

/-- `extract_operation` only ever fails with `UnsupportedStatement`. -/
theorem extract_operation_error_shape (st : Statement) (e : ParseError)
    (h : extract_operation st = .error e) : e = .unsupportedStatement := by
  obtain ⟨k, rels⟩ := st
  cases k <;> simp_all [extract_operation]

/-- `validate_table_refs` only ever fails with `QualifiedTableName` or
`SystemTableAccess`. -/
theorem validate_table_refs_error_shape (refs : List TableRef) (e : ParseError)
    (h : validate_table_refs refs = .error e) :
    (∃ n, e = .qualifiedTableName n) ∨ ∃ n, e = .systemTableAccess n := by
  induction refs with
  | nil => simp [validate_table_refs] at h
  | cons r rest ih =>
    obtain ⟨sch, name⟩ := r
    cases sch with
    | some s =>
      simp only [validate_table_refs] at h
      exact Or.inl ⟨_, by injection h with h2; exact h2.symm⟩
    | none =>
      simp only [validate_table_refs] at h
      by_cases hpg : strStartsWith (strToLower name) "pg_" = true
      · rw [if_pos hpg] at h
        exact Or.inr ⟨_, by injection h with h2; exact h2.symm⟩
      · rw [if_neg hpg] at h
        by_cases hinfo : strToLower name = "information_schema"
        · rw [if_pos hinfo] at h
          exact Or.inr ⟨_, by injection h with h2; exact h2.symm⟩
        · rw [if_neg hinfo] at h
          cases htail : validate_table_refs rest with
          | error e2 =>
            rw [htail] at h
            obtain rfl : e2 = e := by injection h
            exact ih htail
          | ok tail => rw [htail] at h; exact absurd h (by simp)

/-- The table-rules loop only ever fails with `TableDenied` or
`TableNotAllowed`. -/
theorem validate_tables_against_rules_error_shape (rules : QueryRules) (tables : List String)
    (e : ParseError) (h : validate_tables_against_rules rules tables = .error e) :
    (∃ n, e = .tableDenied n) ∨ ∃ n, e = .tableNotAllowed n := by
  induction tables with
  | nil => simp [validate_tables_against_rules] at h
  | cons t rest ih =>
    simp only [validate_tables_against_rules] at h
    split at h
    · exact Or.inl ⟨_, by injection h with h2; exact h2.symm⟩
    · split at h
      · split at h
        · exact Or.inr ⟨_, by injection h with h2; exact h2.symm⟩
        · exact ih h
      · exact ih h

/-- `parse_and_validate` on a single-statement parse, unfolded past the
statement-count checks. -/
theorem parse_and_validate_singleton (st : Statement) (rules : QueryRules) :
    parse_and_validate (.ok [st]) rules =
      match extract_operation st with
      | .error e => .error e
      | .ok operation =>
        match validate_table_refs (extract_table_refs st) with
        | .error e => .error e
        | .ok tables =>
          if rules.allowed_operations ≠ ∅ ∧ operation ∉ rules.allowed_operations then
            .error (.operationNotAllowed operation)
          else
            match validate_tables_against_rules rules tables with
            | .error e => .error e
            | .ok _ => .ok ⟨operation, tables, st⟩ := rfl

/-- C5: a classified operation outside a non-empty `allowed_operations`
set fails with `OperationNotAllowed`, while an empty `allowed_operations`
set rejects nothing at this step — no input ever produces
`OperationNotAllowed` under empty rules. -/
theorem allowed_operations_gate (st : Statement) (rules : QueryRules)
    (op : SqlOperation) (tables : List String)
    (hop : extract_operation st = .ok op)
    (htab : validate_table_refs (extract_table_refs st) = .ok tables) :
    (rules.allowed_operations ≠ ∅ → op ∉ rules.allowed_operations →
      parse_and_validate (.ok [st]) rules = .error (.operationNotAllowed op)) ∧
    (rules.allowed_operations = ∅ → ∀ parsed op',
      parse_and_validate parsed rules ≠ .error (.operationNotAllowed op')) := by
  constructor
  · intro hne hnotin
    rw [parse_and_validate_singleton]
    simp only [hop, htab]
    rw [if_pos ⟨hne, hnotin⟩]
  · intro hempty parsed op' hcontra
    rcases parsed with e | sts
    · simp [parse_and_validate] at hcontra
    · simp only [parse_and_validate] at hcontra
      split at hcontra
      · simp at hcontra
      · split at hcontra
        · simp at hcontra
        · split at hcontra
          · rename_i e heq
            obtain rfl := extract_operation_error_shape _ _ heq
            simp at hcontra
          · split at hcontra
            · rename_i e heq
              rcases validate_table_refs_error_shape _ _ heq with ⟨n, rfl⟩ | ⟨n, rfl⟩ <;>
                simp at hcontra
            · split at hcontra
              · rename_i hgate
                exact hgate.1 hempty
              · split at hcontra
                · rename_i e heq
                  rcases validate_tables_against_rules_error_shape _ _ _ heq with
                    ⟨n, rfl⟩ | ⟨n, rfl⟩ <;> simp at hcontra
                · simp at hcontra

/-- C5 witness: the gate theorem applied to a DELETE statement under rules
allowing only SELECT. -/
theorem allowed_operations_gate_witness :
    parse_and_validate (.ok [⟨.delete, [["users"]]⟩]) ⟨{SqlOperation.select}, none, ∅⟩ =
      .error (.operationNotAllowed .delete) :=
  (allowed_operations_gate ⟨.delete, [["users"]]⟩ ⟨{SqlOperation.select}, none, ∅⟩
    .delete ["users"] (by decide) (by decide)).1 (by decide) (by decide)

/-- C4: header-token extraction returns `MissingHeader` for an absent
header, accepts both the `Bearer <token>` form and a bare `<token>` (after
trimming whitespace), and returns the invalid-format error exactly when
the surface format check — prefix `pg_` and total length 67 — fails on the
extracted token. -/
theorem extract_token_spec :
    extract_token none = .error .missingHeader ∧
    (∀ h, is_valid_format (extracted_header_token h) = true →
      extract_token (some h) = .ok (extracted_header_token h)) ∧
    (∀ h, is_valid_format (extracted_header_token h) = false →
      extract_token (some h) = .error .invalidTokenFormat) ∧
    (∀ h t, extract_token (some h) = .ok t →
      t = extracted_header_token h ∧ is_valid_format t = true) ∧
    extract_token
        (some "Bearer pg_0000000000000000000000000000000000000000000000000000000000000000") =
      .ok "pg_0000000000000000000000000000000000000000000000000000000000000000" ∧
    extract_token
        (some " pg_0000000000000000000000000000000000000000000000000000000000000000 ") =
      .ok "pg_0000000000000000000000000000000000000000000000000000000000000000" := by
  refine ⟨rfl, ?_, ?_, ?_, by decide, by decide⟩
  · intro h hv
    simp only [extract_token]
    rw [if_pos hv]
  · intro h hv
    simp only [extract_token]
    rw [if_neg (by simp [hv])]
  · intro h t ht
    simp only [extract_token] at ht
    split at ht
    · rename_i hv
      obtain rfl : extracted_header_token h = t := by injection ht
      exact ⟨rfl, hv⟩
    · exact absurd ht (by simp)

/-- C4 witness: the extraction theorem applied to a concrete well-formed
`Bearer` header. -/
theorem extract_token_spec_witness :
    extract_token
        (some "Bearer pg_1111111111111111111111111111111111111111111111111111111111111111") =
      .ok (extracted_header_token
        "Bearer pg_1111111111111111111111111111111111111111111111111111111111111111") :=
  extract_token_spec.2.1
    "Bearer pg_1111111111111111111111111111111111111111111111111111111111111111" (by decide)

/-- C6: in both backends the row cap is checked post-fetch — a fetched row
set longer than `max_rows` yields `RowLimitExceeded max_rows` and no
response, while a fetched row set within the cap yields a response whose
`row_count` equals the number of fetched rows; conversely every successful
response counts exactly the fetched rows. -/
theorem row_cap_post_fetch {R J : Type} (row_to_json : R → J) (rows : List R)
    (max_rows : Nat) :
    (rows.length > max_rows →
      execute_with_schema row_to_json (.ok ()) (.ok ()) (.ok rows) (.ok ()) max_rows =
        .error (.rowLimitExceeded max_rows) ∧
      execute_dedicated row_to_json (.ok ()) (.ok rows) max_rows =
        .error (.rowLimitExceeded max_rows)) ∧
    (rows.length ≤ max_rows →
      execute_with_schema row_to_json (.ok ()) (.ok ()) (.ok rows) (.ok ()) max_rows =
        .ok ⟨rows.map row_to_json, rows.length⟩ ∧
      execute_dedicated row_to_json (.ok ()) (.ok rows) max_rows =
        .ok ⟨rows.map row_to_json, rows.length⟩) ∧
    (∀ begin_r set_path_r fetch_r commit_r resp,
      execute_with_schema row_to_json begin_r set_path_r fetch_r commit_r max_rows =
        .ok resp →
      ∃ fetched, fetch_r = .ok fetched ∧ fetched.length ≤ max_rows ∧
        resp.row_count = fetched.length ∧ resp.rows = fetched.map row_to_json) ∧
    (∀ pool_r fetch_r resp,
      execute_dedicated row_to_json pool_r fetch_r max_rows = .ok resp →
      ∃ fetched, fetch_r = .ok fetched ∧ fetched.length ≤ max_rows ∧
        resp.row_count = fetched.length ∧ resp.rows = fetched.map row_to_json) := by
  refine ⟨?_, ?_, ?_, ?_⟩
  · intro hgt
    constructor <;> simp [execute_with_schema, execute_dedicated, liftDb, hgt]
  · intro hle
    have hngt : ¬rows.length > max_rows := by omega
    constructor <;> simp [execute_with_schema, execute_dedicated, liftDb, hngt]
  · intro begin_r set_path_r fetch_r commit_r resp h
    rcases begin_r with eb | ub
    · simp [execute_with_schema, liftDb] at h
    rcases set_path_r with es | us
    · simp [execute_with_schema, liftDb] at h
    rcases fetch_r with ef | fetched
    · simp [execute_with_schema, liftDb] at h
    rcases commit_r with ec | uc
    · simp [execute_with_schema, liftDb] at h
    simp only [execute_with_schema, liftDb] at h
    split at h
    · exact absurd h (by simp)
    · rename_i hle
      obtain rfl :
          ({ rows := fetched.map row_to_json, row_count := fetched.length } : QueryResponse J) =
            resp := by injection h
      exact ⟨fetched, rfl, by omega, rfl, rfl⟩
  · intro pool_r fetch_r resp h
    rcases pool_r with ep | up
    · simp [execute_dedicated, liftDb] at h
    rcases fetch_r with ef | fetched
    · simp [execute_dedicated, liftDb] at h
    simp only [execute_dedicated, liftDb] at h
    split at h
    · exact absurd h (by simp)
    · rename_i hle
      obtain rfl :
          ({ rows := fetched.map row_to_json, row_count := fetched.length } : QueryResponse J) =
            resp := by injection h
      exact ⟨fetched, rfl, by omega, rfl, rfl⟩

/-- C6 witness: the row-cap theorem applied to a two-row fetch against a
cap of one, in both backends. -/
theorem row_cap_post_fetch_witness :
    execute_with_schema (fun n : Nat => n) (.ok ()) (.ok ()) (.ok [1, 2]) (.ok ()) 1 =
      .error (.rowLimitExceeded 1) ∧
    execute_dedicated (fun n : Nat => n) (.ok ()) (.ok [1, 2]) 1 =
      .error (.rowLimitExceeded 1) :=
  (row_cap_post_fetch (fun n : Nat => n) [1, 2] 1).1 (by decide)

/-- C9: in schema mode the transaction commit is sequenced before the
row-cap check — whenever `execute_with_schema` returns `RowLimitExceeded`,
the commit already succeeded (and the rows had been fetched past the cap),
so the user query's effects are not rolled back by the error. -/
theorem schema_commit_precedes_cap {R J : Type} (row_to_json : R → J)
    (begin_r set_path_r : Except String Unit) (fetch_r : Except String (List R))
    (commit_r : Except String Unit) (max_rows cap : Nat)
    (h : execute_with_schema row_to_json begin_r set_path_r fetch_r commit_r max_rows =
      .error (.rowLimitExceeded cap)) :
    commit_r = .ok () ∧
    ∃ rows, fetch_r = .ok rows ∧ rows.length > max_rows ∧ cap = max_rows := by
  rcases begin_r with eb | ub
  · simp [execute_with_schema, liftDb] at h
  rcases set_path_r with es | us
  · simp [execute_with_schema, liftDb] at h
  rcases fetch_r with ef | rows
  · simp [execute_with_schema, liftDb] at h
  rcases commit_r with ec | uc
  · simp [execute_with_schema, liftDb] at h
  simp only [execute_with_schema, liftDb] at h
  split at h
  · rename_i hgt
    have hcap : max_rows = cap := by simpa using h
    exact ⟨rfl, rows, rfl, hgt, hcap.symm⟩
  · exact absurd h (by simp)

/-- C9 witness: the commit-precedes-cap theorem applied to a concrete
two-row over-cap schema execution. -/
theorem schema_commit_precedes_cap_witness :
    (Except.ok () : Except String Unit) = .ok () ∧
    ∃ rows : List Nat, (Except.ok [1, 2] : Except String (List Nat)) = .ok rows ∧
      rows.length > 1 ∧ 1 = 1 :=
  schema_commit_precedes_cap (fun n : Nat => n) (.ok ()) (.ok ()) (.ok [1, 2]) (.ok ())
    1 1 (by decide)

/-- C7: the error-to-HTTP mapping is total and exact — parse errors map to
400 `PARSE_ERROR`, executor timeout to 504 `TIMEOUT`, the row cap to 400
`ROW_LIMIT_EXCEEDED`, every other executor error to 500 `DATABASE_ERROR`,
missing or invalid authentication to 401 `UNAUTHORIZED`, an unknown
database to 404 `DATABASE_NOT_FOUND`, other internal errors to 500
`INTERNAL_ERROR`, and every response is an envelope carrying the error
message and the code. -/
theorem error_response_mapping :
    (∀ pe, error_response (.parse pe) =
      (400, ⟨postgateErrorMessage (.parse pe), "PARSE_ERROR"⟩)) ∧
    error_response (.executor .timeout) =
      (504, ⟨postgateErrorMessage (.executor .timeout), "TIMEOUT"⟩) ∧
    (∀ m, error_response (.executor (.rowLimitExceeded m)) =
      (400, ⟨postgateErrorMessage (.executor (.rowLimitExceeded m)), "ROW_LIMIT_EXCEEDED"⟩)) ∧
    (∀ msg, error_response (.executor (.database msg)) =
      (500, ⟨postgateErrorMessage (.executor (.database msg)), "DATABASE_ERROR"⟩)) ∧
    (∀ id, error_response (.databaseNotFound id) =
      (404, ⟨postgateErrorMessage (.databaseNotFound id), "DATABASE_NOT_FOUND"⟩)) ∧
    error_response .missingAuth =
      (401, ⟨postgateErrorMessage .missingAuth, "UNAUTHORIZED"⟩) ∧
    error_response .invalidAuth =
      (401, ⟨postgateErrorMessage .invalidAuth, "UNAUTHORIZED"⟩) ∧
    (∀ m, error_response (.internal m) =
      (500, ⟨postgateErrorMessage (.internal m), "INTERNAL_ERROR"⟩)) ∧
    (∀ e, (error_response e).2.error = postgateErrorMessage e) :=
  ⟨fun _ => rfl, rfl, fun _ => rfl, fun _ => rfl, fun _ => rfl, rfl, rfl, fun _ => rfl,
    fun _ => rfl⟩

/-- C10: `get_database` never fails on NULL variant columns — a `schema`
row with NULL `schema_name` yields a `Schema` backend with the empty
string (likewise a `dedicated` row with NULL `connection_string`), and the
only backend-related error is `InvalidBackendType`, produced exactly for a
discriminator other than `schema` or `dedicated`. -/
theorem get_database_null_variants (id : Uuid) (row : DatabaseRow) :
    (row.backend_type = "schema" →
      get_database id (.ok (some row)) =
        .ok ⟨row.id, row.name, .schema (row.schema_name.getD ""), row.max_rows⟩) ∧
    (row.backend_type = "schema" → row.schema_name = none →
      get_database id (.ok (some row)) =
        .ok ⟨row.id, row.name, .schema "", row.max_rows⟩) ∧
    (row.backend_type = "dedicated" →
      get_database id (.ok (some row)) =
        .ok ⟨row.id, row.name, .dedicated (row.connection_string.getD ""), row.max_rows⟩) ∧
    (row.backend_type = "dedicated" → row.connection_string = none →
      get_database id (.ok (some row)) =
        .ok ⟨row.id, row.name, .dedicated "", row.max_rows⟩) ∧
    (∀ e, get_database id (.ok (some row)) = .error e →
      e = .invalidBackendType row.backend_type ∧
      row.backend_type ≠ "schema" ∧ row.backend_type ≠ "dedicated") := by
  refine ⟨?_, ?_, ?_, ?_, ?_⟩
  · intro hs
    simp [get_database, hs]
  · intro hs hn
    simp [get_database, hs, hn]
  · intro hd
    have hns : row.backend_type ≠ "schema" := by rw [hd]; decide
    simp [get_database, hd, hns]
  · intro hd hn
    have hns : row.backend_type ≠ "schema" := by rw [hd]; decide
    simp [get_database, hd, hns, hn]
  · intro e he
    by_cases hs : row.backend_type = "schema"
    · simp [get_database, hs] at he
    · by_cases hd : row.backend_type = "dedicated"
      · simp [get_database, hs, hd] at he
      · simp only [get_database, if_neg hs, if_neg hd] at he
        have : StoreError.invalidBackendType row.backend_type = e := by injection he
        exact ⟨this.symm, hs, hd⟩

/-- C10 witness: `get_database` applied to a concrete `schema` row whose
`schema_name` is NULL. -/
theorem get_database_null_variants_witness :
    get_database 0 (.ok (some ⟨1, "tenant", "schema", none, none, 1000⟩)) =
      .ok ⟨1, "tenant", .schema "", 1000⟩ :=
  (get_database_null_variants 0 ⟨1, "tenant", "schema", none, none, 1000⟩).2.1 rfl rfl

end Postgate
